import Mathlib

/-!
Verification of the change-detection and diff-notification engine of
`monitor.py` (ZwiftPower table monitor) against its specification.

The Python source is shallowly embedded: every pure function of the core
(`stabilise_html`, `rank_arrow`, `parse_table`, `diff_rows`,
`table_to_markdown`, `build_messages`, `notify`) is translated into an
executable Lean definition over `String` / `List Char`; HTML documents
(the output of the external `BeautifulSoup(html, "html.parser")` call)
are modelled as a tree type `Node`, and the per-cycle control flow of
`main` is modelled as an event trace.  Python semantics that matter are
made explicit: `dict` is an insertion-ordered association list whose
assignment updates in place, `str.strip` removes ASCII whitespace from
both ends, `re.sub` replaces leftmost non-overlapping matches, and
truthiness of a string is non-emptiness.

Note on the source: line 137 of `monitor.py` is a stray statement
(`html_msg = f"..."` referencing the undefined name `html_snippet`)
sitting at column 0 in the middle of the row loop of `parse_table`.  At
its written indentation the module fails to import; read as part of the
loop body it raises `NameError` on the first body row.  The definition
`parse_tableE` embeds that raising behaviour; `parse_table` embeds the
remaining statements of the function (the code with the invalid line
deleted), which is the reading used to examine the rest of the loop.
-/

/-- ASCII whitespace recognised by Python's `str.strip` and the regex
class `\s` (space, tab, newline, carriage return, vertical tab, form feed). -/
def isPySpace (c : Char) : Bool :=
  c == ' ' || c == '\t' || c == '\n' || c == '\r' || c == '\x0b' || c == '\x0c'

/-- Digit test used when embedding the regexes `\d` / `[^\d]`. -/
def isPyDigit (c : Char) : Bool :=
  '0' ≤ c && c ≤ '9'

/-- Python `str.strip()` on a character list: drop whitespace from both ends. -/
def pyStripL (l : List Char) : List Char :=
  ((l.dropWhile isPySpace).reverse.dropWhile isPySpace).reverse

/-- Python `str.strip()`. -/
def pyStrip (s : String) : String :=
  String.mk (pyStripL s.toList)

/-- Python `str.rstrip()`. -/
def pyRstrip (s : String) : String :=
  String.mk ((s.toList.reverse.dropWhile isPySpace).reverse)

/-- Match a literal pattern as a prefix; on success return the rest of the input. -/
def matchLit : List Char → List Char → Option (List Char)
  | [], l => some l
  | _ :: _, [] => none
  | p :: ps, c :: cs => if p == c then matchLit ps cs else none

/-- Match `[C]+P` where `C` is a character class and `P` a literal tail:
take the maximal non-empty run of class characters, then the literal.
This is exactly how the greedy regexes used by `stabilise_html` behave,
because in each of them the character class excludes the first character
of the literal tail, so no backtracked (shorter) run can succeed. -/
def matchClassPlusLit (cls : Char → Bool) (tail : List Char) (l : List Char) :
    Option (List Char) :=
  let run := l.takeWhile cls
  if run.isEmpty then none else matchLit tail (l.dropWhile cls)

/-- Match of the regex `id="[^"]+"` at the head of the input. -/
def matchIdAttr (l : List Char) : Option (List Char) :=
  match matchLit "id=\"".toList l with
  | none => none
  | some rest => matchClassPlusLit (fun c => c != '"') ['"'] rest

/-- Match of the regex `data-[a-zA-Z0-9\-]+="[^"]+"` at the head of the input. -/
def matchDataAttr (l : List Char) : Option (List Char) :=
  match matchLit "data-".toList l with
  | none => none
  | some rest =>
    match matchClassPlusLit
        (fun c => ('a' ≤ c && c ≤ 'z') || ('A' ≤ c && c ≤ 'Z') ||
                  ('0' ≤ c && c ≤ '9') || c == '-')
        "=\"".toList rest with
    | none => none
    | some rest2 => matchClassPlusLit (fun c => c != '"') ['"'] rest2

/-- Match of the regex `datetime="[^"]+"` at the head of the input. -/
def matchDatetimeAttr (l : List Char) : Option (List Char) :=
  match matchLit "datetime=\"".toList l with
  | none => none
  | some rest => matchClassPlusLit (fun c => c != '"') ['"'] rest

/-- Match of the regex `time="[^"]+"` at the head of the input. -/
def matchTimeAttr (l : List Char) : Option (List Char) :=
  match matchLit "time=\"".toList l with
  | none => none
  | some rest => matchClassPlusLit (fun c => c != '"') ['"'] rest

/-- Engine of `re.sub(pattern, "", s)`: scan left to right; at each
position either delete a match and continue after it, or keep the
character.  Fuel (any number at least the length of the input) makes the
recursion structural; a successful match always consumes at least one
character, so the fuel never runs out when initialised with the length. -/
def reSubDel (m : List Char → Option (List Char)) : Nat → List Char → List Char
  | 0, l => l
  | _ + 1, [] => []
  | fuel + 1, c :: cs =>
    match m (c :: cs) with
    | some rest => reSubDel m fuel rest
    | none => c :: reSubDel m fuel cs

/-- Attribute-removal passes of `stabilise_html`, in source order:
`id="..."`, then `data-...="..."`, then `datetime="..."`, then `time="..."`. -/
def stripAttrsL (l : List Char) : List Char :=
  let s1 := reSubDel matchIdAttr l.length l
  let s2 := reSubDel matchDataAttr s1.length s1
  let s3 := reSubDel matchDatetimeAttr s2.length s2
  reSubDel matchTimeAttr s3.length s3

/-- Embedding of `re.sub(r"\s{2,}", " ", s)`: replace every maximal run of
two or more whitespace characters by one space.  The flag records that the
scanner is inside a run whose single replacement space was already emitted. -/
def collapseGo : Bool → List Char → List Char
  | _, [] => []
  | true, c :: cs =>
    if isPySpace c then collapseGo true cs
    else c :: collapseGo false cs
  | false, c :: cs =>
    if isPySpace c then
      match cs with
      | [] => [c]
      | c2 :: _ =>
        if isPySpace c2 then ' ' :: collapseGo true cs
        else c :: collapseGo false cs
    else c :: collapseGo false cs

/-- Whitespace-run collapse of `stabilise_html`. -/
def collapseL (l : List Char) : List Char :=
  collapseGo false l

/-- Source `stabilise_html` (monitor.py lines 106-114): strip volatile
attributes with four literal-pattern substitutions, collapse whitespace
runs, and strip the ends. -/
def stabilise_html (s : String) : String :=
  String.mk (pyStripL (collapseL (stripAttrsL s.toList)))

/-- Attribute-removal passes alone, on a string (used to state when
`stabilise_html` is idempotent). -/
def stripAttrs (s : String) : String :=
  String.mk (stripAttrsL s.toList)

/-- Numeric value of a digit list, most significant first. -/
def digitsVal (l : List Char) : Nat :=
  l.foldl (fun acc c => 10 * acc + (c.toNat - '0'.toNat)) 0

/-- Inner `to_int` of `rank_arrow`: strip every non-digit character
(`re.sub(r"[^\d]", "", s)`); the result parses iff it is non-empty. -/
def to_int (s : String) : Option Nat :=
  let ds := s.toList.filter isPyDigit
  if ds.isEmpty then none else some (digitsVal ds)

/-- Source `rank_arrow` (monitor.py lines 160-168). -/
def rank_arrow (old_rank new_rank : String) : String :=
  match to_int old_rank, to_int new_rank with
  | some o, some n => if n < o then "↑" else if o < n then "↓" else "→"
  | _, _ => "→"

/-! ## Python dict and list primitives -/

/-- A Python dict with string keys and values: an insertion-ordered
association list with unique keys.  Rows of the parsed table are dicts
from column name to cell text. -/
abbrev Row := List (String × String)

/-- Python dict assignment `m[k] = v`: update in place if the key is
present (keeping its position), else append. -/
def aset {κ α : Type} [DecidableEq κ] : List (κ × α) → κ → α → List (κ × α)
  | [], k, v => [(k, v)]
  | (k0, v0) :: t, k, v => if k0 = k then (k, v) :: t else (k0, v0) :: aset t k v

/-- Python dict read `m.get(k)` / `k in m`: first binding of the key. -/
def aget {κ α : Type} [DecidableEq κ] : List (κ × α) → κ → Option α
  | [], _ => none
  | (k0, v0) :: t, k => if k0 = k then some v0 else aget t k

/-- Python `r.get(k)` on a Row (None when absent). -/
def rget (r : Row) (k : String) : Option String :=
  aget r k

/-- Python `r.get(k, d)` on a Row. -/
def dget (r : Row) (k : String) (d : String) : String :=
  (rget r k).getD d

/-- Python substring test `needle in hay`. -/
def containsSubL (needle : List Char) : List Char → Bool
  | [] => needle.isEmpty
  | c :: cs => (matchLit needle (c :: cs)).isSome || containsSubL needle cs

/-- Python substring test on strings. -/
def containsSub (needle hay : String) : Bool :=
  containsSubL needle.toList hay.toList

/-- Python `s.split(sep)` for a non-empty separator: split at the
leftmost non-overlapping occurrences.  Fuel makes the recursion
structural; initialised with the length it never runs out. -/
def splitOnGo (sep : List Char) : Nat → List Char → List Char → List (List Char)
  | 0, acc, l => [acc.reverse ++ l]
  | _ + 1, acc, [] => [acc.reverse]
  | fuel + 1, acc, c :: cs =>
    match matchLit sep (c :: cs) with
    | some rest => acc.reverse :: splitOnGo sep fuel [] rest
    | none => splitOnGo sep fuel (c :: acc) cs

/-- Python `s.split(sep)` on character lists. -/
def splitOnL (sep l : List Char) : List (List Char) :=
  splitOnGo sep l.length [] l

/-! ## DOM model

`parse_table` receives the result of the external call
`BeautifulSoup(html, "html.parser")`.  That parser is an external
collaborator, so its output — not the raw byte string — is the input of
the embedded extractor: a forest of nodes, each an element with a tag
name, attributes and children, or a text node. -/

inductive Node where
  | text (s : String)
  | elem (tag : String) (attrs : List (String × String)) (children : List Node)

/-- Tag test for an element node. -/
def isTag (t : String) : Node → Bool
  | .elem tag _ _ => tag == t
  | .text _ => false

/-- Attribute lookup on a node (first binding, as in bs4). -/
def getAttr (n : Node) (k : String) : Option String :=
  match n with
  | .text _ => none
  | .elem _ attrs _ => aget attrs k

mutual
/-- All element nodes of a forest in document (pre-)order, each followed
by its element descendants; this is the iteration order of bs4's
`find` / `find_all` / `select` over a parsed fragment. -/
def descList : List Node → List Node
  | [] => []
  | n :: rest => descOf n ++ descList rest
/-- A node (if an element) together with its element descendants. -/
def descOf : Node → List Node
  | .text _ => []
  | .elem t a cs => .elem t a cs :: descList cs
end

/-- Proper element descendants of a node (bs4 searches below the tag
a method is called on, excluding the tag itself). -/
def elemDesc : Node → List Node
  | .text _ => []
  | .elem _ _ cs => descList cs

mutual
/-- The text-node strings below a node, in document order (bs4 `strings`). -/
def nodeTexts : Node → List String
  | .text s => [s]
  | .elem _ _ cs => textsList cs
def textsList : List Node → List String
  | [] => []
  | n :: t => nodeTexts n ++ textsList t
end

/-- bs4 `get_text(separator, strip=True)`: strip each string, drop the
ones that become empty, join with the separator. -/
def getText (sep : String) (n : Node) : String :=
  String.intercalate sep ((nodeTexts n).map pyStrip |>.filter (fun s => s ≠ ""))

/-- bs4 `tag.select("outer inner")` for two plain tag names: the
`inner`-tagged descendants of each `outer`-tagged descendant of the tag,
in document order. -/
def selectPair (n : Node) (outer inner : String) : List Node :=
  ((elemDesc n).filter (isTag outer)).flatMap
    (fun o => (elemDesc o).filter (isTag inner))

/-- bs4 `tr.find_all(["th","td"])`: cell descendants in document order. -/
def findAllCells (tr : Node) : List Node :=
  (elemDesc tr).filter (fun n => isTag "th" n || isTag "td" n)

/-! ## Table extraction (`parse_table`, monitor.py lines 116-146) -/

/-- Identifier extraction `href.split("z=")[-1].split("&")[0]`. -/
def extractZid (href : String) : String :=
  String.mk (((splitOnL "z=".toList href.toList).getLastD []).takeWhile (fun c => c != '&'))

/-- The ZID computation at the top of the row loop: the first `<a>`
descendant carrying an `href` is examined; if that href contains
`profile.php?z=`, the id after its last `z=` (up to `&`) is taken. -/
def zidOfRow (tr : Node) : String :=
  match (elemDesc tr).find? (fun n => isTag "a" n && (getAttr n "href").isSome) with
  | none => ""
  | some a =>
    match getAttr a "href" with
    | none => ""
    | some href => if containsSub "profile.php?z=" href then extractZid href else ""

/-- Key for cell `i`: `headers[i]` when that exists and is non-empty,
else `col_<i+1>`. -/
def cellKey (headers : List String) (i : Nat) : String :=
  match headers[i]? with
  | some h => if h ≠ "" then h else "col_" ++ Nat.repr (i + 1)
  | none => "col_" ++ Nat.repr (i + 1)

/-- The cell loop `for i, val in enumerate(cells): row[key] = val`. -/
def buildRowGo (headers : List String) : Nat → Row → List String → Row
  | _, row, [] => row
  | i, row, v :: rest => buildRowGo headers (i + 1) (aset row (cellKey headers i) v) rest

/-- One body row of `parse_table` (the loop body of lines 131-144, with
the syntactically invalid line 137 deleted): extract the ZID candidate,
read the cells, map them to column names, then
`if zid: row["ZID"] = zid` — note this assignment overwrites a literal
`ZID` column. -/
def processRow (headers : List String) (tr : Node) : Row :=
  let zid := zidOfRow tr
  let cells := (findAllCells tr).map (getText " ")
  let row := buildRowGo headers 0 [] cells
  if zid ≠ "" then aset row "ZID" zid else row

/-- Header discovery and body-row selection shared by both readings of
`parse_table`: header cells from `thead th`, falling back to the cells of
the first `tr`; body rows from `tbody tr`, falling back to all `tr`s but
the first. -/
def tableParts (table : Node) : List String × List Node :=
  let headers0 := (selectPair table "thead" "th").map (getText "")
  let headers :=
    if headers0.isEmpty then
      match (elemDesc table).find? (isTag "tr") with
      | some first_row => (findAllCells first_row).map (getText "")
      | none => headers0
    else headers0
  let tb := selectPair table "tbody" "tr"
  let body_rows := if tb.isEmpty then ((elemDesc table).filter (isTag "tr")).drop 1 else tb
  (headers, body_rows)

/-- Source `parse_table` with the invalid line 137 deleted: every body
row is processed and appended — there is no guard, so a row with zero
cells contributes an empty (or ZID-only) dict. -/
def parse_table (doc : List Node) : List String × List Row :=
  match (descList doc).find? (isTag "table") with
  | none => ([], [])
  | some table =>
    let (headers, body_rows) := tableParts table
    (headers, body_rows.map (processRow headers))

/-- Source `parse_table` as written: the stray statement at line 137
(`html_msg = f"...{html_snippet}..."`) sits in the row loop and
references a name defined nowhere, so the first body-row iteration
raises `NameError` (and at the line's literal indentation the module
does not even import).  No-table and no-body-row inputs return before
reaching it. -/
def parse_tableE (doc : List Node) : Except String (List String × List Row) :=
  match (descList doc).find? (isTag "table") with
  | none => .ok ([], [])
  | some table =>
    let (headers, body_rows) := tableParts table
    match body_rows with
    | [] => .ok (headers, [])
    | _ :: _ => .error "NameError: name html_snippet is not defined"

/-! ## Diff engine (`diff_rows`, monitor.py lines 170-208) -/

/-- Hex digit for JSON `\uXXXX` escapes. -/
def hexDigit (n : Nat) : Char :=
  if n < 10 then Char.ofNat ('0'.toNat + n) else Char.ofNat ('a'.toNat + (n - 10))

/-- Escaping of one character as produced by `json.dumps` with its
default `ensure_ascii=True` (modelled for code points up to U+FFFF;
every string the program manipulates here is within that range). -/
def jsonEscChar (c : Char) : List Char :=
  if c = '"' then ['\\', '"']
  else if c = '\\' then ['\\', '\\']
  else if c = '\n' then ['\\', 'n']
  else if c = '\t' then ['\\', 't']
  else if c = '\r' then ['\\', 'r']
  else if c.toNat < 32 || 126 < c.toNat then
    ['\\', 'u', hexDigit (c.toNat / 4096 % 16), hexDigit (c.toNat / 256 % 16),
     hexDigit (c.toNat / 16 % 16), hexDigit (c.toNat % 16)]
  else [c]

/-- JSON string escaping. -/
def jsonEsc (s : String) : String :=
  String.mk (s.toList.flatMap jsonEscChar)

/-- Code-point comparison of strings, as used by Python `sorted`. -/
def strLeB (a b : String) : Bool :=
  go a.toList b.toList
where go : List Char → List Char → Bool
  | [], _ => true
  | _ :: _, [] => false
  | a :: as, b :: bs => if a.toNat < b.toNat then true else if b.toNat < a.toNat then false else go as bs

/-- Insertion sort (stable, as Python `sorted`). -/
def insSort {α : Type} (le : α → α → Bool) : List α → List α
  | [] => []
  | x :: xs => ins x (insSort le xs)
where ins (x : α) : List α → List α
  | [] => [x]
  | y :: ys => if le x y then x :: y :: ys else y :: ins x ys

/-- Embedding of `json.dumps(r, sort_keys=True)`: the row as a JSON object
with keys sorted, the default `", "` / `": "` separators and
`ensure_ascii` escaping. -/
def jsonDumps (r : Row) : String :=
  "\x7b" ++
    String.intercalate ", "
      ((insSort (fun p q => strLeB p.1 q.1) r).map
        (fun p => "\"" ++ jsonEsc p.1 ++ "\": \"" ++ jsonEsc p.2 ++ "\"")) ++
  "\x7d"

/-- Default `key_fields` of `diff_rows`. -/
def keyFields : List String := ["ZID", "Name"]

/-- Default `compare_fields` of `diff_rows`. -/
def compareFields : List String :=
  ["Rank", "Status", "20m w/kg", "20m power", "15s w/kg", "15s power"]

/-- The loop of `key_for`: first key field whose stripped value is
non-empty, together with that stripped value. -/
def keyFromFields : List String → Row → Option (String × String)
  | [], _ => none
  | k :: t, r =>
    let v := pyStrip (dget r k "")
    if v ≠ "" then some (k, v) else keyFromFields t r

/-- Inner `key_for` of `diff_rows`: a natural key from the key fields,
else the structural fallback `("_row", json.dumps(r, sort_keys=True))`. -/
def key_for (kfs : List String) (r : Row) : String × String :=
  (keyFromFields kfs r).getD ("_row", jsonDumps r)

/-- The dict comprehension `{key_for(r): r for r in rows}`. -/
def buildMap (kfs : List String) (rows : List Row) : List ((String × String) × Row) :=
  rows.foldl (fun m r => aset m (key_for kfs r) r) []

/-- The tracked-field comparison inside the changed-branch of
`diff_rows`: for each compare field, pair the old and new text (absent
fields read as `""`) and keep the pairs that differ. -/
def fieldChanges (cfs : List String) (old curr : Row) : List (String × String × String) :=
  cfs.filterMap (fun f =>
    let ov := dget old f ""
    let nv := dget curr f ""
    if ov ≠ nv then some (f, ov, nv) else none)

/-- Rendering of a non-empty change set: `Rank` is popped and re-inserted
first as `"ov arrow nv"`, every other field becomes `"ov → nv"`. -/
def formatChanges (chs : List (String × String × String)) : List (String × String) :=
  match chs.find? (fun p => p.1 = "Rank") with
  | some (_, ov, nv) =>
    ("Rank", ov ++ " " ++ rank_arrow ov nv ++ " " ++ nv) ::
      (chs.filter (fun p => p.1 ≠ "Rank")).map (fun p => (p.1, p.2.1 ++ " → " ++ p.2.2))
  | none => chs.map (fun p => (p.1, p.2.1 ++ " → " ++ p.2.2))

/-- Label of a changed entry: `r.get("Name") or r.get("ZID") or "(unknown)"`. -/
def changeLabel (r : Row) : String :=
  if dget r "Name" "" ≠ "" then dget r "Name" ""
  else if dget r "ZID" "" ≠ "" then dget r "ZID" ""
  else "(unknown)"

/-- Result dict of `diff_rows`. -/
structure DiffResult where
  added : List Row
  removed : List Row
  changed : List (String × List (String × String))
deriving DecidableEq

/-- Source `diff_rows` (monitor.py lines 170-208) at its default key and
compare fields.  `prev_map` is empty when `prev_rows` is falsy; the first
loop over `curr_map` fills `added` and `changed`, the second loop over
`prev_map` fills `removed`. -/
def diff_rows (prev_rows curr_rows : List Row) : DiffResult :=
  let prev_map := if prev_rows.isEmpty then [] else buildMap keyFields prev_rows
  let curr_map := buildMap keyFields curr_rows
  let added := (curr_map.filter (fun p => (aget prev_map p.1).isNone)).map (fun p => p.2)
  let changed := curr_map.filterMap (fun p =>
    match aget prev_map p.1 with
    | none => none
    | some old =>
      let chs := fieldChanges compareFields old p.2
      if chs.isEmpty then none
      else some (changeLabel p.2, formatChanges chs))
  let removed := (prev_map.filter (fun p => (aget curr_map p.1).isNone)).map (fun p => p.2)
  ⟨added, removed, changed⟩

/-! ## Message renderer (`table_to_markdown` and `build_messages`,
monitor.py lines 148-158 and 210-259) -/

/-- Source `table_to_markdown` at its default `max_cols=6, max_rows=15`. -/
def table_to_markdown (headers : List String) (rows : List Row) : String :=
  let hs := headers.take 6
  let short_rows := (rows.take 15).map (fun r => hs.map (fun h => dget r h ""))
  let md :=
    (if hs.isEmpty then ""
     else String.intercalate " | " hs ++ "\n" ++
          String.intercalate " | " (hs.map (fun _ => "---")) ++ "\n") ++
    String.join (short_rows.map (fun cs => String.intercalate " | " cs ++ "\n"))
  let stripped := pyStrip md
  if stripped = "" then "(no rows)" else stripped

/-- Entry line of the Added/Removed sections:
`f"➕ {nm}  {rk}".rstrip()` with the same label fallback as `changed`. -/
def rosterLine (mark : String) (r : Row) : String :=
  pyRstrip (mark ++ " " ++ changeLabel r ++ "  " ++ dget r "Rank" "")

/-- Lines of the Added section: only the first 15 added rows. -/
def addedLines (d : DiffResult) : List String :=
  (d.added.take 15).map (rosterLine "➕")

/-- Lines of the Removed section: only the first 15 removed rows. -/
def removedLines (d : DiffResult) : List String :=
  (d.removed.take 15).map (rosterLine "➖")

/-- Lines of the Changed section: only the first 20 changed entries;
`Rank` is popped and, when its rendered value is truthy, printed on the
entry's head line; every remaining field gets an indented line. -/
def changedLines (d : DiffResult) : List String :=
  (d.changed.take 20).flatMap (fun e =>
    let label := e.1
    let changes := e.2
    let rest := (changes.filter (fun p => p.1 ≠ "Rank")).map
      (fun p => "   " ++ p.1 ++ ": " ++ p.2)
    match changes.find? (fun p => p.1 = "Rank") with
    | some rc => (if rc.2 = "" then [] else ["✳️ " ++ label ++ ": Rank " ++ rc.2]) ++ rest
    | none => rest)

/-- The `parts_md` list of `build_messages` on the diff path, including
the empty-diff fallback to the compact table. -/
def diffPartsMd (url : String) (headers : List String) (rows prev : List Row) : List String :=
  let d := diff_rows prev rows
  let parts :=
    ["ZwiftPower change detected:\n" ++ url] ++
    (if d.added.isEmpty then []
     else ["\n**Added**\n```\n" ++ String.intercalate "\n" (addedLines d) ++ "\n```"]) ++
    (if d.removed.isEmpty then []
     else ["\n**Removed**\n```\n" ++ String.intercalate "\n" (removedLines d) ++ "\n```"]) ++
    (if d.changed.isEmpty then []
     else ["\n**Changed**\n```\n" ++ String.intercalate "\n" (changedLines d) ++ "\n```"])
  if d.added.isEmpty && d.removed.isEmpty && d.changed.isEmpty then
    parts ++ ["\n```md\n" ++ table_to_markdown headers rows ++ "\n```"]
  else parts

/-- The `parts_txt` list of `build_messages` on the diff path. -/
def diffPartsTxt (url : String) (headers : List String) (rows prev : List Row) : List String :=
  let d := diff_rows prev rows
  let parts :=
    ["ZwiftPower change detected:\n" ++ url] ++
    (if d.added.isEmpty then []
     else ["\nAdded\n" ++ String.intercalate "\n" (addedLines d)]) ++
    (if d.removed.isEmpty then []
     else ["\nRemoved\n" ++ String.intercalate "\n" (removedLines d)]) ++
    (if d.changed.isEmpty then []
     else ["\nChanged\n" ++ String.intercalate "\n" (changedLines d)])
  if d.added.isEmpty && d.removed.isEmpty && d.changed.isEmpty then
    parts ++ ["\n" ++ table_to_markdown headers rows]
  else parts

/-- The fully assembled markdown message, before length truncation. -/
def assembleMd (url : String) (headers : List String) (rows prev : List Row) : String :=
  String.intercalate "\n" (diffPartsMd url headers rows prev)

/-- The fully assembled plain-text message, before length truncation. -/
def assembleTxt (url : String) (headers : List String) (rows prev : List Row) : String :=
  String.intercalate "\n" (diffPartsTxt url headers rows prev)

/-- The truncation marker appended by `build_messages`. -/
def tMark : String := "\n...(truncated)..."

/-- Length cap of `build_messages`: `if len(msg) > cap: msg = msg[:cap] + marker`. -/
def truncAt (cap : Nat) (s : String) : String :=
  if cap < s.length then String.mk (s.toList.take cap) ++ tMark else s

/-- Source `build_messages` (monitor.py lines 210-259): the initial
snapshot branch returns untruncated messages; the diff branch joins the
parts and applies the caps 1900 (markdown) and 3500 (plain text). -/
def build_messages (url : String) (headers : List String) (rows : List Row)
    (prev_rows : Option (List Row)) : String × String :=
  match prev_rows with
  | none =>
    let md_table := table_to_markdown headers rows
    ("ZwiftPower initial snapshot:\n" ++ url ++ "\n\n```md\n" ++ md_table ++ "\n```",
     "ZwiftPower initial snapshot:\n" ++ url ++ "\n\n" ++ md_table)
  | some prev =>
    (truncAt 1900 (assembleMd url headers rows prev),
     truncAt 3500 (assembleTxt url headers rows prev))

/-! ## Notification dispatch (`notify`, monitor.py lines 44-63) -/

/-- Source `notify`: the three channel slots in source order.  A slot
with an empty URL is skipped (`if not url: continue` and the
`if SLACK_WEBHOOK:` guard); each configured channel is attempted inside
its own `try`, so one failure never stops the following attempts.  The
external `requests.post` + `raise_for_status` pair is the transport
capability `post`, `true` meaning a delivered send; the returned flag is
the `sent` accumulator. -/
def notify (markdown_msg plain_msg : String) (generic discord slack : String)
    (post : String → List (String × String) → Bool) : List (String × Bool) × Bool :=
  let payload_discord := [("content", markdown_msg)]
  let r1 := if generic = "" then [] else [("Generic", post generic payload_discord)]
  let r2 := if discord = "" then [] else [("Discord", post discord payload_discord)]
  let r3 := if slack = "" then [] else [("Slack", post slack [("text", plain_msg)])]
  let results := r1 ++ r2 ++ r3
  (results, results.any (fun p => p.2))

/-! ## Per-cycle control flow (`main`, monitor.py lines 261-319)

The cycle is modelled as the sequence of store/dispatch events it
performs, with the external collaborators as parameters: `hashFn` is
`hashlib.sha256(...).hexdigest()`, `doc` the parsed fetched markup,
`lastHash` the cache-file content (absent on first run, read as `""`),
and `prevRows` the JSON snapshot (absent or unparseable read as None).
Store reads happen before the change check; on a change the three store
writes happen, then the messages are built, then `notify` is called. -/

inductive Ev where
  | readStore
  | writeHtml (html : String)
  | writeJson (rows : List Row)
  | writeHash (h : String)
  | buildMsgs (md txt : String)
  | dispatch (md txt : String)
  | logNoChange
deriving DecidableEq

/-- Store-write events (fingerprint file, HTML snapshot, JSON snapshot). -/
def Ev.isStoreWrite : Ev → Bool
  | .writeHtml _ => true
  | .writeJson _ => true
  | .writeHash _ => true
  | _ => false

/-- The notification-attempt event. -/
def Ev.isDispatch : Ev → Bool
  | .dispatch _ _ => true
  | _ => false

/-- Event trace of one cycle of `main` (monitor.py lines 293-317). -/
def cycleTrace (hashFn : String → String) (url html : String) (doc : List Node)
    (lastHash : Option String) (prevRows : Option (List Row)) : List Ev :=
  let stable := stabilise_html html
  let current_hash := hashFn stable
  let last_hash := lastHash.getD ""
  let hr := parse_table doc
  Ev.readStore ::
    (if current_hash ≠ last_hash then
      let msgs := build_messages url hr.1 hr.2 prevRows
      [.writeHtml html, .writeJson hr.2, .writeHash current_hash,
       .buildMsgs msgs.1 msgs.2, .dispatch msgs.1 msgs.2]
    else [.logNoChange])

/-! ## Helper lemmas on association lists -/

/-- Every entry of `aset m k v` either carries the assigned key or was
already in `m`. -/
theorem mem_aset_cases {κ α : Type} [DecidableEq κ] (m : List (κ × α)) (k : κ) (v : α) :
    ∀ p ∈ aset m k v, p.1 = k ∨ p ∈ m := by
  induction m with
  | nil => intro p hp; simp [aset] at hp; simp [hp]
  | cons q t ih =>
    intro p hp
    by_cases hq : q.1 = k
    · simp only [aset] at hp
      rw [if_pos hq] at hp
      rcases List.mem_cons.mp hp with h | h
      · left; simp [h]
      · right; exact List.mem_cons_of_mem _ h
    · simp only [aset] at hp
      rw [if_neg hq] at hp
      rcases List.mem_cons.mp hp with h | h
      · right; simp [h]
      · rcases ih p h with h2 | h2
        · left; exact h2
        · right; exact List.mem_cons_of_mem _ h2

/-- Dict assignment preserves distinctness of keys. -/
theorem aset_pairwise {κ α : Type} [DecidableEq κ] (m : List (κ × α)) (k : κ) (v : α)
    (h : m.Pairwise fun a b => a.1 ≠ b.1) :
    (aset m k v).Pairwise fun a b => a.1 ≠ b.1 := by
  induction m with
  | nil => simp [aset]
  | cons q t ih =>
    rcases List.pairwise_cons.mp h with ⟨hq, ht⟩
    by_cases hk : q.1 = k
    · simp only [aset, if_pos hk]
      exact List.pairwise_cons.mpr ⟨fun b hb => hk ▸ hq b hb, ht⟩
    · simp only [aset, if_neg hk]
      refine List.pairwise_cons.mpr ⟨?_, ih ht⟩
      intro b hb
      rcases mem_aset_cases t k v b hb with h2 | h2
      · rw [h2]; exact hk
      · exact hq b h2

/-- In a dict with distinct keys, reading the key of an entry gives that
entry's value. -/
theorem aget_of_mem {κ α : Type} [DecidableEq κ] (m : List (κ × α))
    (h : m.Pairwise fun a b => a.1 ≠ b.1) :
    ∀ p ∈ m, aget m p.1 = some p.2 := by
  induction m with
  | nil => intro p hp; simp at hp
  | cons q t ih =>
    rcases List.pairwise_cons.mp h with ⟨hq, ht⟩
    intro p hp
    rcases List.mem_cons.mp hp with h2 | h2
    · subst h2; simp [aget]
    · have : q.1 ≠ p.1 := hq p h2
      simp only [aget]
      rw [if_neg this]
      exact ih ht p h2

/-- The key→row index built by `diff_rows` has distinct keys. -/
theorem buildMap_pairwise (kfs : List String) (rows : List Row) :
    (buildMap kfs rows).Pairwise fun a b => a.1 ≠ b.1 := by
  have : ∀ (init : List ((String × String) × Row)),
      init.Pairwise (fun a b => a.1 ≠ b.1) →
      (rows.foldl (fun m r => aset m (key_for kfs r) r) init).Pairwise fun a b => a.1 ≠ b.1 := by
    induction rows with
    | nil => intro init h; simpa using h
    | cons r t ih =>
      intro init h
      exact ih _ (aset_pairwise _ _ _ h)
  exact this [] (by simp)

/-- Comparing a row's tracked fields with itself yields no change. -/
theorem fieldChanges_self (cfs : List String) (r : Row) :
    fieldChanges cfs r r = [] := by
  simp [fieldChanges]

/-- C2: diffing a snapshot against an identical snapshot (the same row
list, hence the same keys and the same indexed rows) yields empty
`added`, `removed` and `changed` lists. -/
theorem C2_diff_identical (rs : List Row) : diff_rows rs rs = ⟨[], [], []⟩ := by
  by_cases hrs : rs.isEmpty
  · rw [List.isEmpty_iff] at hrs
    subst hrs
    decide
  · have hmap : ∀ p ∈ buildMap keyFields rs, aget (buildMap keyFields rs) p.1 = some p.2 :=
      aget_of_mem _ (buildMap_pairwise _ _)
    simp only [diff_rows, hrs, if_false, Bool.false_eq_true, DiffResult.mk.injEq]
    refine ⟨?_, ?_, ?_⟩
    · rw [List.map_eq_nil_iff, List.filter_eq_nil_iff]
      intro p hp
      simp [hmap p hp]
    · rw [List.map_eq_nil_iff, List.filter_eq_nil_iff]
      intro p hp
      simp [hmap p hp]
    · rw [List.filterMap_eq_nil_iff]
      intro p hp
      rw [hmap p hp]
      simp [fieldChanges_self]

/-- C8: `rank_arrow("5","2")` is the improvement marker and
`rank_arrow("2","5")` the decline marker; whenever either side has no
digits left after stripping non-digits the neutral marker is returned;
and on two numeric sides the marker is the improvement arrow exactly
when the new value is lower, the decline arrow exactly when it is
higher. -/
theorem C8_rank_arrow_markers :
    rank_arrow "5" "2" = "↑" ∧ rank_arrow "2" "5" = "↓" ∧
    (∀ o n : String, to_int o = none ∨ to_int n = none → rank_arrow o n = "→") ∧
    (∀ o n : String, ∀ a b : Nat, to_int o = some a → to_int n = some b →
      (rank_arrow o n = "↑" ↔ b < a) ∧ (rank_arrow o n = "↓" ↔ a < b)) := by
  refine ⟨by decide, by decide, ?_, ?_⟩
  · intro o n h
    rcases h with h | h
    · rcases hn : to_int n with _ | b <;> simp [rank_arrow, h, hn]
    · rcases ho : to_int o with _ | a <;> simp [rank_arrow, h, ho]
  · intro o n a b ha hb
    rcases Nat.lt_trichotomy a b with h | h | h
    · have hba : ¬ b < a := Nat.lt_asymm h
      simp [rank_arrow, ha, hb, h, hba]
    · subst h
      simp [rank_arrow, ha, hb]
    · have hab : ¬ a < b := Nat.lt_asymm h
      simp [rank_arrow, ha, hb, h, hab]

/-- Witness for `C8_rank_arrow_markers` at concrete inputs. -/
theorem C8_rank_arrow_markers_witness :
    rank_arrow "n/a" "4" = "→" ∧ rank_arrow "#12" "3rd" = "↑" :=
  ⟨C8_rank_arrow_markers.2.2.1 "n/a" "4" (Or.inl (by decide)),
   (C8_rank_arrow_markers.2.2.2 "#12" "3rd" 12 3 (by decide) (by decide)).1.mpr (by decide)⟩

/-- C6: with all three channel slots configured and a transport that
succeeds on channels 1 and 3 but fails on channel 2, `notify` still
attempts all three channels (the failure does not short-circuit), and
its outcome records exactly one failure and two successes. -/
theorem C6_notify_isolation (markdown_msg plain_msg generic discord slack : String)
    (post : String → List (String × String) → Bool)
    (hg : generic ≠ "") (hd : discord ≠ "") (hs : slack ≠ "")
    (hpg : post generic [("content", markdown_msg)] = true)
    (hpd : post discord [("content", markdown_msg)] = false)
    (hps : post slack [("text", plain_msg)] = true) :
    (notify markdown_msg plain_msg generic discord slack post).1 =
      [("Generic", true), ("Discord", false), ("Slack", true)] ∧
    ((notify markdown_msg plain_msg generic discord slack post).1.filter
      (fun p => !p.2)).length = 1 ∧
    ((notify markdown_msg plain_msg generic discord slack post).1.filter
      (fun p => p.2)).length = 2 ∧
    (notify markdown_msg plain_msg generic discord slack post).2 = true := by
  simp [notify, hg, hd, hs, hpg, hpd, hps]

/-- Witness for `C6_notify_isolation` with a concrete transport that
fails exactly on the second channel's URL. -/
theorem C6_notify_isolation_witness :
    (notify "m" "p" "gu" "du" "su" (fun u _ => u == "gu" || u == "su")).1 =
      [("Generic", true), ("Discord", false), ("Slack", true)] ∧
    ((notify "m" "p" "gu" "du" "su" (fun u _ => u == "gu" || u == "su")).1.filter
      (fun p => !p.2)).length = 1 ∧
    ((notify "m" "p" "gu" "du" "su" (fun u _ => u == "gu" || u == "su")).1.filter
      (fun p => p.2)).length = 2 ∧
    (notify "m" "p" "gu" "du" "su" (fun u _ => u == "gu" || u == "su")).2 = true :=
  C6_notify_isolation "m" "p" "gu" "du" "su" (fun u _ => u == "gu" || u == "su")
    (by decide) (by decide) (by decide) rfl rfl rfl

/-- C10: a tracked compare field that is absent from a row is read by the
diff exactly as the empty string (`old.get(f, "")` / `r.get(f, "")`), so
a field absent on both sides, or absent on one side and present with the
empty string on the other, never contributes an entry to the change set
of a matched row pair. -/
theorem C10_absent_field_as_empty (old curr : Row) (f : String)
    (hold : rget old f = none ∨ rget old f = some "")
    (hcurr : rget curr f = none ∨ rget curr f = some "") :
    (fieldChanges compareFields old curr).all (fun p => p.1 != f) = true := by
  have h1 : dget old f "" = "" := by rcases hold with h | h <;> simp [dget, h]
  have h2 : dget curr f "" = "" := by rcases hcurr with h | h <;> simp [dget, h]
  rw [List.all_eq_true]
  intro p hp
  simp only [fieldChanges, List.mem_filterMap] at hp
  rcases hp with ⟨g, _, hsome⟩
  by_cases hgf : dget old g "" ≠ dget curr g ""
  · rw [if_pos hgf] at hsome
    have hpg : p.1 = g := by
      simp only [Option.some.injEq] at hsome
      rw [← hsome]
    by_cases hq : g = f
    · subst hq
      rw [h1, h2] at hgf
      exact absurd rfl hgf
    · have : p.1 ≠ f := by rw [hpg]; exact hq
      simpa using this
  · rw [if_neg hgf] at hsome
    exact absurd hsome (by simp)

/-- Witness for `C10_absent_field_as_empty`: `Rank` present-but-empty on
one side and absent on the other is not reported. -/
theorem C10_absent_field_as_empty_witness :
    (fieldChanges compareFields [("Status", "ok"), ("Rank", "")] [("Status", "ok")]).all
      (fun p => p.1 != "Rank") = true :=
  C10_absent_field_as_empty [("Status", "ok"), ("Rank", "")] [("Status", "ok")] "Rank"
    (Or.inr (by decide)) (Or.inl (by decide))

/-- C1: the claim that `parse_table` never raises is contradicted by the
source: the stray statement at monitor.py line 137 references the
undefined name `html_snippet` inside the body-row loop, so any fragment
whose table has at least one body row raises `NameError` (and at the
line's literal column-0 indentation the module does not even import).
The no-table half of the claim does hold: an empty fragment returns
`([], [])` before the loop is reached. -/
theorem C1_parse_table_raises :
    parse_tableE [.elem "table" [] [.elem "tbody" [] [.elem "tr" [] [.elem "td" [] [.text "x"]]]]] =
      .error "NameError: name html_snippet is not defined" ∧
    parse_tableE [] = .ok ([], []) ∧
    parse_tableE [.text "no table"] = .ok ([], []) :=
  ⟨rfl, rfl, rfl⟩

/-- C4: a body row with zero cells is not skipped — the loop body (with
the invalid line 137 removed) unconditionally appends the row dict, so a
cell-less `<tr>` contributes an empty Row to the output, contradicting
the claim that every emitted Row has at least one field. -/
theorem C4_empty_row_not_skipped :
    parse_table [.elem "table" [] [
      .elem "thead" [] [.elem "tr" [] [.elem "th" [] [.text "A"]]],
      .elem "tbody" [] [.elem "tr" [] []]]] = (["A"], [[]]) ∧
    ((parse_table [.elem "table" [] [
      .elem "thead" [] [.elem "tr" [] [.elem "th" [] [.text "A"]]],
      .elem "tbody" [] [.elem "tr" [] []]]]).2.any (fun r => r.isEmpty)) = true := by
  decide

/-- Reading back the key just assigned by dict assignment. -/
theorem aget_aset_self {κ α : Type} [DecidableEq κ] (m : List (κ × α)) (k : κ) (v : α) :
    aget (aset m k v) k = some v := by
  induction m with
  | nil => simp [aset, aget]
  | cons q t ih =>
    by_cases hq : q.1 = k
    · simp [aset, aget, hq]
    · simp [aset, aget, hq, ih]

/-- C9 counterexample: the derived identifier logic differs from the
claim on both counts.  First table: the row has a literal `ZID` column
with value `111` and a profile link with id `222`; the emitted row
carries `ZID = 222` — the literal column is overwritten.  Second table:
the first hyperlink of the row does not match the profile pattern and a
later one does; no `ZID` is derived at all, although the claim's "first
such match" reading would derive `333`. -/
theorem C9_counterexample :
    (parse_table [.elem "table" [] [
      .elem "thead" [] [.elem "tr" [] [.elem "th" [] [.text "ZID"], .elem "th" [] [.text "Name"]]],
      .elem "tbody" [] [.elem "tr" [] [
        .elem "td" [] [.text "111"],
        .elem "td" [] [.elem "a" [("href", "profile.php?z=222")] [.text "Bob"]]]]]]).2 =
      [[("ZID", "222"), ("Name", "Bob")]] ∧
    (parse_table [.elem "table" [] [
      .elem "thead" [] [.elem "tr" [] [.elem "th" [] [.text "A"], .elem "th" [] [.text "B"]]],
      .elem "tbody" [] [.elem "tr" [] [
        .elem "td" [] [.elem "a" [("href", "event.php?e=1")] [.text "x"]],
        .elem "td" [] [.elem "a" [("href", "profile.php?z=333")] [.text "y"]]]]]]).2 =
      [[("A", "x"), ("B", "y")]] := by
  decide

/-- C9 amended: only the first href-carrying hyperlink of a body row is
consulted; when its target contains the profile pattern and yields a
non-empty id, `row["ZID"]` is set to that id, overwriting any literal
`ZID` column; when no id is derived the row consists of the literal
columns alone. -/
theorem C9_zid_assignment (headers : List String) (tr : Node) :
    (zidOfRow tr ≠ "" → rget (processRow headers tr) "ZID" = some (zidOfRow tr)) ∧
    (zidOfRow tr = "" →
      processRow headers tr = buildRowGo headers 0 [] ((findAllCells tr).map (getText " "))) := by
  constructor
  · intro h
    simp only [processRow, if_pos h]
    exact aget_aset_self _ _ _
  · intro h
    simp [processRow, h]

/-- Witness for `C9_zid_assignment` on a concrete row. -/
theorem C9_zid_assignment_witness :
    rget (processRow ["Name"] (.elem "tr" [] [.elem "td" []
        [.elem "a" [("href", "profile.php?z=77")] [.text "Zoe"]]])) "ZID" =
      some (zidOfRow (.elem "tr" [] [.elem "td" []
        [.elem "a" [("href", "profile.php?z=77")] [.text "Zoe"]]])) :=
  (C9_zid_assignment ["Name"] _).1 (by decide)

/-- C3 counterexample: a concrete changed cycle (no previous hash, so the
fingerprint comparison fires) in which the first store write sits at
trace position 1 while the dispatch attempt sits at position 5 — the old
snapshot is overwritten before dispatch is attempted, contradicting the
claimed ordering. -/
theorem C3_counterexample :
    (cycleTrace (fun s => s) "u" "x" [] none (some [])).findIdx Ev.isStoreWrite = 1 ∧
    (cycleTrace (fun s => s) "u" "x" [] none (some [])).findIdx Ev.isDispatch = 5 ∧
    ¬ ((cycleTrace (fun s => s) "u" "x" [] none (some [])).findIdx Ev.isDispatch <
       (cycleTrace (fun s => s) "u" "x" [] none (some [])).findIdx Ev.isStoreWrite) := by
  decide

/-- C3 amended: on a changed cycle each snapshot component is written
exactly once and dispatch is attempted exactly once, and on an unchanged
cycle neither happens; but the writes come first — after the first
dispatch event no store write ever follows (the diff nevertheless uses
the old rows, which were read before the writes). -/
theorem C3_snapshot_write_ordering (hashFn : String → String) (url html : String)
    (doc : List Node) (lastHash : Option String) (prevRows : Option (List Row)) :
    ((cycleTrace hashFn url html doc lastHash prevRows).filter Ev.isStoreWrite).length =
      (if hashFn (stabilise_html html) = lastHash.getD "" then 0 else 3) ∧
    ((cycleTrace hashFn url html doc lastHash prevRows).filter Ev.isDispatch).length =
      (if hashFn (stabilise_html html) = lastHash.getD "" then 0 else 1) ∧
    ((cycleTrace hashFn url html doc lastHash prevRows).dropWhile
        (fun e => !e.isDispatch)).all (fun e => !e.isStoreWrite) = true := by
  by_cases h : hashFn (stabilise_html html) = lastHash.getD ""
  · simp [cycleTrace, h, Ev.isStoreWrite, Ev.isDispatch]
  · simp [cycleTrace, h, Ev.isStoreWrite, Ev.isDispatch]

/-! ## Idempotence analysis of `stabilise_html` -/

/-- Adjacent characters that are not both whitespace: the invariant of a
string with no collapsible whitespace run. -/
def noTwoSpaces (a b : Char) : Prop :=
  (isPySpace a && isPySpace b) = false

/-- The collapse pass leaves no two adjacent whitespace characters, and
in swallow mode its output starts with a non-space character. -/
theorem collapseGo_chain (l : List Char) :
    List.Chain' noTwoSpaces (collapseGo true l) ∧
    (∀ c ∈ (collapseGo true l).head?, isPySpace c = false) ∧
    List.Chain' noTwoSpaces (collapseGo false l) := by
  induction l with
  | nil => simp [collapseGo]
  | cons c cs ih =>
    obtain ⟨ihT, ihTh, ihF⟩ := ih
    by_cases hc : isPySpace c
    · refine ⟨?_, ?_, ?_⟩
      · simpa [collapseGo, hc] using ihT
      · simpa [collapseGo, hc] using ihTh
      · cases cs with
        | nil => simp [collapseGo, hc, List.chain'_singleton]
        | cons c2 t =>
          by_cases hc2 : isPySpace c2
          · have ihT2 : List.Chain' noTwoSpaces (collapseGo true t) := by
              simpa [collapseGo, hc2] using ihT
            have ihTh2 : ∀ c ∈ (collapseGo true t).head?, isPySpace c = false := by
              simpa [collapseGo, hc2] using ihTh
            simp only [collapseGo, hc, hc2, if_true]
            exact List.chain'_cons'.mpr
              ⟨fun b hb => by simp [noTwoSpaces, ihTh2 b hb], ihT2⟩
          · have ihF2 : List.Chain' noTwoSpaces (c2 :: collapseGo false t) := by
              simpa [collapseGo, hc2] using ihF
            simp only [collapseGo, hc, hc2, if_true, if_false, Bool.false_eq_true]
            refine List.chain'_cons'.mpr ⟨?_, ihF2⟩
            intro b hb
            simp only [List.head?_cons, Option.mem_def, Option.some.injEq] at hb
            simp [noTwoSpaces, ← hb, hc2]
    · refine ⟨?_, ?_, ?_⟩
      · simp only [collapseGo, hc, Bool.false_eq_true, if_false]
        exact List.chain'_cons'.mpr ⟨fun b _ => by simp [noTwoSpaces, hc], ihF⟩
      · intro b hb
        simp only [collapseGo, hc, Bool.false_eq_true, if_false, List.head?_cons,
          Option.mem_def, Option.some.injEq] at hb
        rw [← hb]
        simpa using hc
      · simp only [collapseGo, hc, Bool.false_eq_true, if_false]
        exact List.chain'_cons'.mpr ⟨fun b _ => by simp [noTwoSpaces, hc], ihF⟩

/-- On a string with no two adjacent whitespace characters, the collapse
pass is the identity. -/
theorem collapseGo_fixed (l : List Char) (h : List.Chain' noTwoSpaces l) :
    collapseGo false l = l := by
  induction l with
  | nil => rfl
  | cons c cs ih =>
    obtain ⟨hhead, htail⟩ := List.chain'_cons'.mp h
    by_cases hc : isPySpace c
    · cases cs with
      | nil => simp [collapseGo]
      | cons c2 t =>
        have hc2 : isPySpace c2 = false := by
          have h2 := hhead c2 (by simp)
          simpa [noTwoSpaces, hc] using h2
        have hunf : collapseGo false (c2 :: t) = c2 :: collapseGo false t := by
          simp [collapseGo, hc2]
        have ih2 := ih htail
        rw [hunf] at ih2
        have ih3 : collapseGo false t = t := by simpa using ih2
        simp [collapseGo, hc, hc2, ih3]
    · simp [collapseGo, hc, ih htail]

/-- The two-sided strip is the right-drop of the left-drop. -/
theorem pyStripL_eq (l : List Char) :
    pyStripL l = (l.dropWhile isPySpace).rdropWhile isPySpace := rfl

/-- A non-empty prefix has the head of the longer list. -/
theorem prefix_head_eq {α : Type} {l1 l2 : List α} (h : l1 <+: l2) (hne : l1 ≠ []) :
    l1.head? = l2.head? := by
  obtain ⟨t, rfl⟩ := h
  cases l1 with
  | nil => exact absurd rfl hne
  | cons a l => rfl

/-- Heads surviving a `dropWhile` fail the predicate. -/
theorem dropWhile_head_false {α : Type} (p : α → Bool) (l : List α) :
    ∀ c ∈ (l.dropWhile p).head?, p c = false := by
  induction l with
  | nil => simp
  | cons a t ih =>
    by_cases hp : p a
    · simpa [List.dropWhile_cons, hp] using ih
    · intro c hc
      simp only [List.dropWhile_cons, hp, Bool.false_eq_true, if_false, List.head?_cons,
        Option.mem_def, Option.some.injEq] at hc
      rw [← hc]
      simpa using hp

/-- A `dropWhile` whose head already fails the predicate is the identity. -/
theorem dropWhile_eq_self_of_head {α : Type} (p : α → Bool) (l : List α)
    (h : ∀ c ∈ l.head?, p c = false) : l.dropWhile p = l := by
  cases l with
  | nil => rfl
  | cons a t =>
    have ha : p a = false := h a (by simp)
    simp [List.dropWhile_cons, ha]

/-- Python `strip` is idempotent. -/
theorem pyStripL_idem (l : List Char) : pyStripL (pyStripL l) = pyStripL l := by
  rw [pyStripL_eq l, pyStripL_eq]
  have h1 : ((l.dropWhile isPySpace).rdropWhile isPySpace).dropWhile isPySpace =
      (l.dropWhile isPySpace).rdropWhile isPySpace := by
    apply dropWhile_eq_self_of_head
    intro c hc
    have hne : (l.dropWhile isPySpace).rdropWhile isPySpace ≠ [] := by
      intro h0
      rw [h0] at hc
      simp at hc
    have hpre := List.rdropWhile_prefix isPySpace (l.dropWhile isPySpace)
    have hh := prefix_head_eq hpre hne
    rw [hh] at hc
    exact dropWhile_head_false isPySpace l c hc
  rw [h1, List.rdropWhile_idempotent]

/-- The strip keeps the no-adjacent-whitespace invariant. -/
theorem pyStripL_chain (l : List Char) (h : List.Chain' noTwoSpaces l) :
    List.Chain' noTwoSpaces (pyStripL l) := by
  rw [pyStripL_eq]
  have h1 : List.Chain' noTwoSpaces (l.dropWhile isPySpace) :=
    List.Chain'.suffix h (List.dropWhile_suffix isPySpace)
  have hpre := List.rdropWhile_prefix isPySpace (l.dropWhile isPySpace)
  exact List.Chain'.prefix h1 hpre

set_option maxHeartbeats 2000000 in
/-- C5 counterexample: `stabilise_html` is not idempotent.  Removing
`id="a"` from this input splices the surrounding characters into a new
`id="b"` occurrence, which only the second application removes. -/
theorem C5_counterexample :
    stabilise_html (stabilise_html "iid=\"a\"d=\"b\"c\"") ≠
      stabilise_html "iid=\"a\"d=\"b\"c\"" := by
  decide

set_option maxHeartbeats 1000000 in
/-- C5 amended: `stabilise_html` is idempotent on every input whose
stabilised form is left unchanged by the attribute-removal passes (in
particular whenever no removal splices together a fresh attribute
occurrence); the whitespace collapse and the final strip are idempotent
unconditionally, so re-stabilising changes nothing beyond a possible
second round of attribute removal. -/
theorem C5_stabilise_idempotent_unless_respliced (x : String)
    (h : stripAttrs (stabilise_html x) = stabilise_html x) :
    stabilise_html (stabilise_html x) = stabilise_html x := by
  have hL : stripAttrsL (stabilise_html x).toList = (stabilise_html x).toList := by
    have h0 := congrArg String.toList h
    rwa [show stripAttrs (stabilise_html x) =
          String.mk (stripAttrsL (stabilise_html x).toList) from rfl,
        show ∀ l : List Char, (String.mk l).toList = l from fun _ => rfl] at h0
  show String.mk (pyStripL (collapseL (stripAttrsL (stabilise_html x).toList))) =
    stabilise_html x
  rw [hL,
    show (stabilise_html x).toList = pyStripL (collapseL (stripAttrsL x.toList)) from rfl]
  have hchain : List.Chain' noTwoSpaces (collapseL (stripAttrsL x.toList)) :=
    (collapseGo_chain (stripAttrsL x.toList)).2.2
  have hchain2 : List.Chain' noTwoSpaces (pyStripL (collapseL (stripAttrsL x.toList))) :=
    pyStripL_chain _ hchain
  have hfix : collapseL (pyStripL (collapseL (stripAttrsL x.toList))) =
      pyStripL (collapseL (stripAttrsL x.toList)) := collapseGo_fixed _ hchain2
  rw [hfix, pyStripL_idem]
  rfl

/-- Witness for `C5_stabilise_idempotent_unless_respliced` on an input
with a collapsible whitespace run and no volatile attributes. -/
theorem C5_stabilise_idempotent_witness :
    stabilise_html (stabilise_html " a  b ") = stabilise_html " a  b " :=
  C5_stabilise_idempotent_unless_respliced " a  b " (by decide)

/-! ## Truncation behaviour of `build_messages` -/

/-- Length of an appended string, at the character-list level. -/
theorem mk_append_length (l : List Char) (t : String) :
    (String.mk l ++ t).length = l.length + t.length := by
  obtain ⟨m⟩ := t
  show (l ++ m).length = l.length + m.length
  exact List.length_append l m

/-- The capped message never exceeds the cap plus the marker length. -/
theorem truncAt_length_le (cap : Nat) (s : String) :
    (truncAt cap s).length ≤ cap + tMark.length := by
  unfold truncAt
  by_cases h : cap < s.length
  · rw [if_pos h, mk_append_length, List.length_take]
    have hm : min cap s.toList.length ≤ cap := Nat.min_le_left _ _
    exact Nat.add_le_add_right hm _
  · rw [if_neg h]
    exact le_trans (Nat.le_of_not_lt h) (Nat.le_add_right _ _)

/-- An over-cap message is cut at the cap and the marker appended. -/
theorem truncAt_of_over (cap : Nat) (s : String) (h : cap < s.length) :
    truncAt cap s = String.mk (s.toList.take cap) ++ tMark := by
  unfold truncAt
  rw [if_pos h]

/-- An in-budget message is returned unchanged. -/
theorem truncAt_of_within (cap : Nat) (s : String) (h : s.length ≤ cap) :
    truncAt cap s = s := by
  unfold truncAt
  rw [if_neg (Nat.not_lt.mpr h)]

/-- C7 amended: on the diff path both representations are independently
capped — the markdown form at 1900 characters and the plain form at 3500
— with the `...(truncated)...` marker appended exactly when the fully
assembled message exceeds its cap, character truncation acting only on
the assembled whole; however each section first caps its own entry
count (first 15 added rows, 15 removed rows, 20 changed entries), and
the initial-snapshot branch of `build_messages` applies no length cap at
all. -/
theorem C7_assembled_truncation (url : String) (headers : List String) (rows prev : List Row) :
    (build_messages url headers rows (some prev)).1.length ≤ 1900 + tMark.length ∧
    (build_messages url headers rows (some prev)).2.length ≤ 3500 + tMark.length ∧
    (1900 < (assembleMd url headers rows prev).length →
      (build_messages url headers rows (some prev)).1 =
        String.mk ((assembleMd url headers rows prev).toList.take 1900) ++ tMark) ∧
    ((assembleMd url headers rows prev).length ≤ 1900 →
      (build_messages url headers rows (some prev)).1 = assembleMd url headers rows prev) ∧
    (3500 < (assembleTxt url headers rows prev).length →
      (build_messages url headers rows (some prev)).2 =
        String.mk ((assembleTxt url headers rows prev).toList.take 3500) ++ tMark) ∧
    ((assembleTxt url headers rows prev).length ≤ 3500 →
      (build_messages url headers rows (some prev)).2 = assembleTxt url headers rows prev) ∧
    (addedLines (diff_rows prev rows)).length ≤ 15 ∧
    (removedLines (diff_rows prev rows)).length ≤ 15 ∧
    ((diff_rows prev rows).changed.take 20).length ≤ 20 := by
  refine ⟨?_, ?_, ?_, ?_, ?_, ?_, ?_, ?_, ?_⟩
  · exact truncAt_length_le 1900 (assembleMd url headers rows prev)
  · exact truncAt_length_le 3500 (assembleTxt url headers rows prev)
  · intro h
    exact truncAt_of_over 1900 _ h
  · intro h
    exact truncAt_of_within 1900 _ h
  · intro h
    exact truncAt_of_over 3500 _ h
  · intro h
    exact truncAt_of_within 3500 _ h
  · show (((diff_rows prev rows).added.take 15).map (rosterLine "➕")).length ≤ 15
    rw [List.length_map, List.length_take]
    exact Nat.min_le_left _ _
  · show (((diff_rows prev rows).removed.take 15).map (rosterLine "➖")).length ≤ 15
    rw [List.length_map, List.length_take]
    exact Nat.min_le_left _ _
  · rw [List.length_take]
    exact Nat.min_le_left _ _

/-- Witness for `C7_assembled_truncation`: a short assembled message is
returned verbatim — the in-budget branch of both caps, applied at a
concrete input. -/
theorem C7_assembled_truncation_witness :
    (build_messages "u" ["h"] [[("h", "v")]] (some [])).1 =
      assembleMd "u" ["h"] [[("h", "v")]] [] ∧
    (build_messages "u" ["h"] [[("h", "v")]] (some [])).2 =
      assembleTxt "u" ["h"] [[("h", "v")]] [] :=
  ⟨(C7_assembled_truncation "u" ["h"] [[("h", "v")]] []).2.2.2.1 (by decide),
   (C7_assembled_truncation "u" ["h"] [[("h", "v")]] []).2.2.2.2.2.1 (by decide)⟩

/-- Previous rows for the C7 counterexample: one rider. -/
def c7prev : List Row := [[("Name", "P")]]

/-- Current rows for the C7 counterexample: the same rider plus sixteen
new ones. -/
def c7curr : List Row :=
  [[("Name", "P")],
   [("Name", "A1")], [("Name", "A2")], [("Name", "A3")], [("Name", "A4")],
   [("Name", "A5")], [("Name", "A6")], [("Name", "A7")], [("Name", "A8")],
   [("Name", "A9")], [("Name", "A10")], [("Name", "A11")], [("Name", "A12")],
   [("Name", "A13")], [("Name", "A14")], [("Name", "A15")], [("Name", "A16")]]

set_option maxHeartbeats 4000000 in
set_option maxRecDepth 4000 in
/-- C7 counterexample: sixteen rows are added; the sixteenth is in the
diff's `added` list, yet its entry is absent from the rendered markdown
message even though that message is far below the 1900-character cap —
the Added section drops entries past its own count cap of 15,
independently of the overall length cap. -/
theorem C7_counterexample :
    (build_messages "u" ["Name"] c7curr (some c7prev)).1.length ≤ 1900 ∧
    ¬ ("A16".toList <:+: (build_messages "u" ["Name"] c7curr (some c7prev)).1.toList) ∧
    [("Name", "A16")] ∈ (diff_rows c7prev c7curr).added := by
  decide
